import Mathlib

/-!
# graceful: shutdown coordination for an HTTP server

A shallow embedding of `graceful.go` and `option.go`.

* Sequential code (`init`, `load`, the options, the entry points) is embedded
  as pure functions on a `Server` record.
* The concurrent part (the goroutine started by `ListenAndServe` and the
  `select` of `waitForShutdown`) is embedded as a step function on an explicit
  state; a run is the execution of a schedule (a list of actions).
* `time.Duration` and instants are integers counting nanoseconds.
-/

namespace Graceful

/-! ## Errors -/

/-- Go `error` values that occur in the package. `ErrServerClosed` is the
sentinel `http.ErrServerClosed`, `DeadlineExceeded` is
`context.DeadlineExceeded`, `errorString` is any other error (identified by its
text) and `wrapError msg err` is the value built by `fmt.Errorf` with a `%w`
verb. A nil error is `none : Option GoError`. -/
inductive GoError where
  | ErrServerClosed : GoError
  | DeadlineExceeded : GoError
  | errorString (s : String) : GoError
  | wrapError (msg : String) (err : GoError) : GoError
  deriving DecidableEq, Repr

/-- The method `Error()`: the text of an error. -/
def GoError.Error : GoError → String
  | .ErrServerClosed => "http: Server closed"
  | .DeadlineExceeded => "context deadline exceeded"
  | .errorString s => s
  | .wrapError msg _ => msg

/-- The method `Unwrap()`: only a `wrapError` wraps something. -/
def GoError.Unwrap : GoError → Option GoError
  | .wrapError _ err => some err
  | _ => none

/-- The tag of `graceful.go:45` and `graceful.go:59`, up to the verb. -/
def tag : String := "[graceful] "

/-- `fmt.Errorf("[graceful] %w", err)` for a non-nil `err`
(`graceful.go:45`, `graceful.go:59`): the text is the format with `%w` replaced
by `err.Error()`, and the result unwraps to `err`. -/
def Errorf (err : GoError) : GoError :=
  .wrapError (tag ++ err.Error) err

/-! ## Time -/

/-- `time.Duration`: a signed count of nanoseconds. -/
abbrev Duration := Int

/-- An instant, in nanoseconds on the monotonic clock. -/
abbrev Time := Int

/-- `time.Second`. -/
def Second : Duration := 1000000000

/-- `const DefaultShutdownTimeout = 5 * time.Second` (`graceful.go:13`). -/
def DefaultShutdownTimeout : Duration := 5 * Second

/-! ## Channels -/

/-- A buffered channel: its capacity and the values waiting in it, oldest
first. Only buffered sends and receives are used by the package. -/
structure Chan (α : Type) where
  cap : Nat
  buf : List α
  deriving DecidableEq, Repr

/-- `make(chan α, n)`. -/
def make (α : Type) (n : Nat) : Chan α := ⟨n, []⟩

/-- The zero value of a channel field (a nil channel): no send and no receive
on it is ever ready. -/
def nilChan (α : Type) : Chan α := ⟨0, []⟩

/-- `c <- v`: `none` when the send is not ready (the buffer is full). -/
def Chan.send {α : Type} (c : Chan α) (v : α) : Option (Chan α) :=
  if c.buf.length < c.cap then some { c with buf := c.buf ++ [v] } else none

/-- `<-c`: `none` when the receive is not ready (the buffer is empty). -/
def Chan.recv {α : Type} (c : Chan α) : Option (α × Chan α) :=
  match c.buf with
  | [] => none
  | v :: rest => some (v, { c with buf := rest })

/-! ## The server record and the options (`graceful.go:17-36`, `option.go`) -/

/-- Modelled from the spec: the server collaborator `http.Server` of Go's
standard library, which is not part of the repository. Kept are the two fields
the entry points set (`Addr`, `Handler`) and the list of callbacks that
`RegisterOnShutdown` appends to (the spec's `preShutdownHooks`, in registration
order). `H` is the type of handlers, `F` the type of callbacks. -/
structure HttpServer (H F : Type) where
  Addr : String
  Handler : H
  onShutdown : List F
  deriving DecidableEq, Repr

/-- Modelled from the spec: the collaborator's method `RegisterOnShutdown`,
which appends one callback to the registered ones. -/
def HttpServer.RegisterOnShutdown {H F : Type} (srv : HttpServer H F) (f : F) :
    HttpServer H F :=
  { srv with onShutdown := srv.onShutdown ++ [f] }

/-- `type Server struct` (`graceful.go:17-25`). The embedded `*http.Server` is
taken to be non-nil, as every method of the package dereferences it; the field
is called `Srv` here because inside the namespace of the record the name
`Server` would stand for the field and for the record at once. -/
structure Server (H F : Type) where
  Srv : HttpServer H F
  ShutdownTimeout : Duration
  errChan : Chan GoError
  deriving DecidableEq, Repr

/-- `func (s *Server) init()` (`graceful.go:28-30`). -/
def Server.init {H F : Type} (s : Server H F) : Server H F :=
  { s with errChan := make GoError 1 }

/-- `type option struct` (`option.go:15-17`); it is the only implementation of
the interface `Option`, whose method `apply` is unexported. -/
structure option (H F : Type) where
  f : Server H F → Server H F

/-- `func (o *option) apply(s *Server)` (`option.go:19-21`). -/
def option.apply {H F : Type} (o : option H F) (s : Server H F) : Server H F :=
  o.f s

/-- `func newOption(f func(s *Server)) *option` (`option.go:23-25`). -/
def newOption {H F : Type} (f : Server H F → Server H F) : option H F :=
  { f := f }

/-- `func WithShutdownTimeout(timeout time.Duration) Option`
(`option.go:28-32`). -/
def WithShutdownTimeout {H F : Type} (timeout : Duration) : option H F :=
  newOption fun s => { s with ShutdownTimeout := timeout }

/-- `func WithShutdownFunc(fs ...func()) Option` (`option.go:35-41`): the loop
calls `s.RegisterOnShutdown(f)` (promoted from the embedded server) for each
`f` of `fs` in turn. -/
def WithShutdownFunc {H F : Type} (fs : List F) : option H F :=
  newOption fun s =>
    fs.foldl (fun s f => { s with Srv := s.Srv.RegisterOnShutdown f }) s

/-- `func (s *Server) load(opts []Option)` (`graceful.go:32-36`). -/
def Server.load {H F : Type} (s : Server H F) (opts : List (option H F)) : Server H F :=
  opts.foldl (fun s opt => opt.apply s) s

/-- What a caller can write for one element of `opts`: one of the two exported
constructors with its arguments. -/
inductive OptionCall (F : Type) where
  | shutdownTimeout (d : Duration) : OptionCall F
  | shutdownFunc (fs : List F) : OptionCall F
  deriving DecidableEq, Repr

/-- The option value a constructor call evaluates to. -/
def OptionCall.eval {H F : Type} : OptionCall F → option H F
  | .shutdownTimeout d => WithShutdownTimeout d
  | .shutdownFunc fs => WithShutdownFunc fs

/-- The duration of the last `WithShutdownTimeout` call of a list of
constructor calls, if there is one. -/
def lastShutdownTimeout {F : Type} : List (OptionCall F) → Option Duration
  | [] => none
  | .shutdownTimeout d :: rest => some ((lastShutdownTimeout rest).getD d)
  | .shutdownFunc _ :: rest => lastShutdownTimeout rest

/-! ## Contexts and the collaborator's `Shutdown` -/

/-- Modelled from the documentation of Go's package `context`, which is not
part of the repository: a `context.Context` reduced to its deadline (`none`:
the context never expires). This is the "bound" handed to the shutdown
operation. -/
structure Context where
  deadline : Option Time
  deriving DecidableEq, Repr

/-- Modelled from the documentation of Go's package `context`:
`context.Background()`, the context without a deadline. -/
def Background : Context := { deadline := none }

/-- Modelled from the documentation of Go's package `context`:
`context.WithTimeout(parent, timeout)` evaluated at the instant `now`. It is
documented as `WithDeadline(parent, time.Now().Add(timeout))`: the child
expires at `now + timeout` unless the parent expires earlier, whatever the
sign of `timeout` (a deadline that is not in the future gives a context that
has expired already). -/
def WithTimeout (parent : Context) (timeout : Duration) (now : Time) : Context :=
  match parent.deadline with
  | some cur => if cur < now + timeout then parent else { deadline := some (now + timeout) }
  | none => { deadline := some (now + timeout) }

/-- Modelled from the documentation of Go's package `context`: `ctx.Err()`
read at the instant `t`; the context has expired, with
`context.DeadlineExceeded`, once its deadline is reached. The deferred
`cancel()` of `graceful.go:75` runs after `Shutdown` has returned and is left
out. -/
def Context.Err (ctx : Context) (t : Time) : Option GoError :=
  match ctx.deadline with
  | some d => if d ≤ t then some .DeadlineExceeded else none
  | none => none

/-- What one call of the collaborator's `Shutdown` hands back: its error and
the instant at which it returns. -/
structure ShutdownReturn where
  err : Option GoError
  returnedAt : Time
  deriving DecidableEq, Repr

/-- The behaviour of the collaborator's `Shutdown(ctx)`: from the context it is
given and the instant of the call, either what it returns or `none` when it
never returns. -/
abbrev ShutdownFn := Context → Time → Option ShutdownReturn

/-- Modelled from the spec: `(*http.Server).Shutdown` of Go's standard library,
"stops accepting new connections immediately and waits for active requests to
finish, or for the bound to elapse". `lnerr` is the error of closing the
listeners and `busy` the time the active connections still need from the call
on (`none`: they never finish). The call first looks at the connections and
returns `lnerr` when none is active; otherwise it returns `ctx.Err()` as soon
as the context has expired, or `lnerr` when the connections have finished
before that (the expiry is reported when both fall on the same instant). The
granularity of the polling is left out. -/
def httpShutdown (lnerr : Option GoError) (busy : Option Duration) : ShutdownFn :=
  fun ctx now =>
    match busy with
    | some w =>
      if w ≤ 0 then some { err := lnerr, returnedAt := now }
      else
        match ctx.deadline with
        | some d =>
          if d ≤ now + w then some { err := ctx.Err (max d now), returnedAt := max d now }
          else some { err := lnerr, returnedAt := now + w }
        | none => some { err := lnerr, returnedAt := now + w }
    | none =>
      match ctx.deadline with
      | some d => some { err := ctx.Err (max d now), returnedAt := max d now }
      | none => none

/-! ## The run as a transition system (`graceful.go:40-80`) -/

/-- The signals of `signal.Notify(quit, syscall.SIGINT, syscall.SIGTERM)`. -/
inductive Signal where
  | SIGINT : Signal
  | SIGTERM : Signal
  deriving DecidableEq, Repr

/-- Which serve call the goroutine makes: `s.Server.ListenAndServe()`
(`graceful.go:44`) or `s.Server.ListenAndServeTLS(certFile, keyFile)`
(`graceful.go:58`). -/
inductive ServeCall where
  | ListenAndServe : ServeCall
  | ListenAndServeTLS (certFile keyFile : String) : ServeCall
  deriving DecidableEq, Repr

/-- Where the goroutine of `graceful.go:43-47` (`graceful.go:57-61`) stands. -/
inductive Task where
  /-- inside the collaborator's serve call -/
  | serving : Task
  /-- the serve call returned an error to report: at `s.errChan <- ...` -/
  | sending (e : GoError) : Task
  /-- the function literal has returned -/
  | exited : Task
  deriving DecidableEq, Repr

/-- Where the caller stands in `waitForShutdown` (`graceful.go:66-80`). -/
inductive Main where
  /-- at the `select` of line 69 -/
  | selecting : Main
  /-- the case `<-quit` was taken: at line 74 -/
  | signalled : Main
  /-- inside `s.Server.Shutdown(ctx)`, called at `calledAt` -/
  | inShutdown (ctx : Context) (calledAt : Time) : Main
  /-- `waitForShutdown` has returned `err` -/
  | returned (err : Option GoError) : Main
  deriving DecidableEq, Repr

/-- The two cases of the `select` of `graceful.go:69-73`. -/
inductive SelectCase where
  | errChan : SelectCase
  | quit : SelectCase
  deriving DecidableEq, Repr

/-- The state of one run. `s`, `quit`, `task` and `main` are the program's
state; the remaining fields only record history: which serve call was
launched, what it returned, the values pushed into `s.errChan` so far, which
case of the `select` was taken, the contexts handed to `Shutdown` (one entry
per invocation) and when `Shutdown` returned. -/
structure State (H F : Type) where
  s : Server H F
  quit : Chan Signal
  task : Task
  main : Main
  launched : ServeCall
  served : Option (Option GoError)
  sent : List GoError
  winner : Option SelectCase
  shutdownCalls : List (Context × Time)
  shutdownReturnedAt : Option Time
  deriving DecidableEq, Repr

/-- The atomic steps of a run. -/
inductive Action where
  /-- the collaborator's serve call returns `r` (`none` is a nil error) -/
  | serveReturns (r : Option GoError) : Action
  /-- the goroutine performs `s.errChan <- fmt.Errorf(...)` -/
  | send : Action
  /-- the process receives a termination signal, which the runtime offers to
  `quit` without blocking -/
  | signal (sig : Signal) : Action
  /-- the `select` takes `case err := <-s.errChan` -/
  | selectErrChan : Action
  /-- the `select` takes `case <-quit` -/
  | selectQuit : Action
  /-- lines 74-76: the context is built at the instant `now` and `Shutdown`
  is called -/
  | callShutdown (now : Time) : Action
  /-- `Shutdown` returns, and `waitForShutdown` with it (lines 76-79) -/
  | shutdownReturns : Action
  deriving DecidableEq, Repr

/-- One step of the run; `none` when the action is not enabled in `st`.
`Shutdown` is the behaviour of the collaborator's shutdown operation. -/
def step {H F : Type} (Shutdown : ShutdownFn) (st : State H F) : Action → Option (State H F)
  | .serveReturns r =>
    match st.task with
    | .serving =>
      match r with
      | some err =>
        -- `err != nil && err != http.ErrServerClosed`
        if err ≠ .ErrServerClosed then
          some { st with task := .sending (Errorf err), served := some r }
        else some { st with task := .exited, served := some r }
      | none => some { st with task := .exited, served := some r }
    | _ => none
  | .send =>
    match st.task with
    | .sending e =>
      match st.s.errChan.send e with
      | some c =>
        some { st with s := { st.s with errChan := c }, task := .exited, sent := st.sent ++ [e] }
      | none => none
    | _ => none
  | .signal sig =>
    match st.quit.send sig with
    | some c => some { st with quit := c }
    | none => some st
  | .selectErrChan =>
    match st.main with
    | .selecting =>
      match st.s.errChan.recv with
      | some (err, c) =>
        some { st with s := { st.s with errChan := c }, main := .returned (some err),
                       winner := some .errChan }
      | none => none
    | _ => none
  | .selectQuit =>
    match st.main with
    | .selecting =>
      match st.quit.recv with
      | some (_, c) => some { st with quit := c, main := .signalled, winner := some .quit }
      | none => none
    | _ => none
  | .callShutdown now =>
    match st.main with
    | .signalled =>
      let ctx := WithTimeout Background st.s.ShutdownTimeout now
      some { st with main := .inShutdown ctx now,
                     shutdownCalls := st.shutdownCalls ++ [(ctx, now)] }
    | _ => none
  | .shutdownReturns =>
    match st.main with
    | .inShutdown ctx calledAt =>
      match Shutdown ctx calledAt with
      | some ret =>
        some { st with main := .returned ret.err, shutdownReturnedAt := some ret.returnedAt }
      | none => none
    | _ => none

/-- Execute a schedule; `none` when one of its actions is not enabled. -/
def exec {H F : Type} (Shutdown : ShutdownFn) (st : State H F) : List Action → Option (State H F)
  | [] => some st
  | a :: rest =>
    match step Shutdown st a with
    | some st1 => exec Shutdown st1 rest
    | none => none

/-- What the run has returned to its caller: `none` while it is still
blocked, `some none` for a nil error, `some (some e)` for the error `e`. -/
def State.result {H F : Type} (st : State H F) : Option (Option GoError) :=
  match st.main with
  | .returned err => some err
  | _ => none

/-- The state in which `waitForShutdown` (`graceful.go:66-69`) reaches its
`select`, the goroutine making the serve call `call` having been started:
`quit` is a fresh channel of capacity 1 subscribed to the two signals. -/
def Server.waitForShutdown {H F : Type} (s : Server H F) (call : ServeCall) : State H F :=
  { s := s, quit := make Signal 1, task := .serving, main := .selecting, launched := call,
    served := none, sent := [], winner := none, shutdownCalls := [],
    shutdownReturnedAt := none }

/-- `func (s *Server) ListenAndServe(opts ...Option) error`
(`graceful.go:40-49`): `init`, `load`, start the goroutine, wait. The value is
the state from which the run proceeds; its outcome under a schedule `sched` is
`exec Shutdown (s.ListenAndServe opts) sched`. -/
def Server.ListenAndServe {H F : Type} (s : Server H F) (opts : List (option H F)) :
    State H F :=
  (s.init.load opts).waitForShutdown .ListenAndServe

/-- `func (s *Server) ListenAndServeTLS(certFile, keyFile string, opts ...Option) error`
(`graceful.go:54-63`). -/
def Server.ListenAndServeTLS {H F : Type} (s : Server H F) (certFile keyFile : String)
    (opts : List (option H F)) : State H F :=
  (s.init.load opts).waitForShutdown (.ListenAndServeTLS certFile keyFile)

/-- `func ListenAndServe(addr string, handler http.Handler, opts ...Option) error`
(`graceful.go:88-97`). -/
def ListenAndServe {H F : Type} (addr : String) (handler : H) (opts : List (option H F)) :
    State H F :=
  Server.ListenAndServe
    { Srv := { Addr := addr, Handler := handler, onShutdown := [] },
      ShutdownTimeout := DefaultShutdownTimeout,
      errChan := nilChan GoError } opts

/-- `func ListenAndServeTLS(addr, certFile, keyFile string, handler http.Handler,
opts ...Option) error` (`graceful.go:105-114`). -/
def ListenAndServeTLS {H F : Type} (addr certFile keyFile : String) (handler : H)
    (opts : List (option H F)) : State H F :=
  Server.ListenAndServeTLS
    { Srv := { Addr := addr, Handler := handler, onShutdown := [] },
      ShutdownTimeout := DefaultShutdownTimeout,
      errChan := nilChan GoError } certFile keyFile opts

/-- The four ways of starting a run, the options being given as the
constructor calls the caller wrote. -/
inductive EntryPoint (H F : Type) where
  | method (s : Server H F) (opts : List (OptionCall F)) : EntryPoint H F
  | methodTLS (s : Server H F) (certFile keyFile : String) (opts : List (OptionCall F)) :
      EntryPoint H F
  | free (addr : String) (handler : H) (opts : List (OptionCall F)) : EntryPoint H F
  | freeTLS (addr certFile keyFile : String) (handler : H) (opts : List (OptionCall F)) :
      EntryPoint H F

/-- The state from which the run of an entry point proceeds. -/
def EntryPoint.start {H F : Type} : EntryPoint H F → State H F
  | .method s opts => s.ListenAndServe (opts.map OptionCall.eval)
  | .methodTLS s certFile keyFile opts =>
    s.ListenAndServeTLS certFile keyFile (opts.map OptionCall.eval)
  | .free addr handler opts => ListenAndServe addr handler (opts.map OptionCall.eval)
  | .freeTLS addr certFile keyFile handler opts =>
    ListenAndServeTLS addr certFile keyFile handler (opts.map OptionCall.eval)

/-- The callbacks of the `WithShutdownFunc` calls of a list of constructor
calls, in the order written. -/
def shutdownFuncs {F : Type} : List (OptionCall F) → List F
  | [] => []
  | .shutdownTimeout _ :: rest => shutdownFuncs rest
  | .shutdownFunc fs :: rest => fs ++ shutdownFuncs rest

/-- What the goroutine pushes for the result `r` of the serve call, read off
the condition of `graceful.go:44`. -/
def pushedFor (r : Option GoError) : List GoError :=
  match r with
  | some err => if err ≠ .ErrServerClosed then [Errorf err] else []
  | none => []

/-- The actions that resolve the `select`. -/
def Action.isSelect : Action → Bool
  | .selectErrChan => true
  | .selectQuit => true
  | _ => false

/-- The actions that invoke the collaborator's `Shutdown`. -/
def Action.isCallShutdown : Action → Bool
  | .callShutdown _ => true
  | _ => false

/-- What holds of the goroutine in every state of a run. -/
def TaskInv {H F : Type} (st : State H F) : Prop :=
  match st.task with
  | .serving => st.served = none ∧ st.sent = [] ∧ st.s.errChan.buf = []
  | .sending x =>
    ∃ e, st.served = some (some e) ∧ e ≠ .ErrServerClosed ∧ x = Errorf e
      ∧ st.sent = [] ∧ st.s.errChan.buf = []
  | .exited =>
    ∃ r, st.served = some r ∧ st.sent = pushedFor r
      ∧ st.s.errChan.buf = if st.winner = some .errChan then [] else st.sent

/-- What holds of the caller in every state of a run. -/
def MainInv {H F : Type} (Shutdown : ShutdownFn) (st : State H F) : Prop :=
  match st.main with
  | .selecting => st.winner = none ∧ st.shutdownCalls = [] ∧ st.shutdownReturnedAt = none
  | .signalled => st.winner = some .quit ∧ st.shutdownCalls = [] ∧ st.shutdownReturnedAt = none
  | .inShutdown ctx t =>
    st.winner = some .quit ∧ st.shutdownCalls = [(ctx, t)]
      ∧ ctx = WithTimeout Background st.s.ShutdownTimeout t ∧ st.shutdownReturnedAt = none
  | .returned err =>
    (st.winner = some .errChan ∧ st.shutdownCalls = [] ∧ st.shutdownReturnedAt = none
        ∧ ∃ e, err = some e ∧ st.sent = [e])
    ∨ (st.winner = some .quit
        ∧ ∃ ctx t ret, st.shutdownCalls = [(ctx, t)]
          ∧ ctx = WithTimeout Background st.s.ShutdownTimeout t
          ∧ Shutdown ctx t = some ret ∧ err = ret.err
          ∧ st.shutdownReturnedAt = some ret.returnedAt)

/-- The invariant of a run started with the loaded server `s0`, relating the
schedule executed so far to the state reached. -/
structure Inv {H F : Type} (Shutdown : ShutdownFn) (s0 : Server H F) (sched : List Action)
    (st : State H F) : Prop where
  srv : st.s.Srv = s0.Srv
  timeout : st.s.ShutdownTimeout = s0.ShutdownTimeout
  errCap : st.s.errChan.cap = 1
  quitCap : st.quit.cap = 1
  task : TaskInv st
  main : MainInv Shutdown st
  selects : sched.countP Action.isSelect = if st.winner = none then 0 else 1
  calls : sched.countP Action.isCallShutdown = st.shutdownCalls.length

/-! ## Concrete runs -/

/-- The error of the collaborator's serve call for the address `"bbb"`, with
the text expected by `TestListenAndServe` (`graceful_test.go:9-13`). -/
def bbbError : GoError := .errorString "listen tcp: address bbb: missing port in address"

/-- The call `ListenAndServe("bbb", nil)` of the test. -/
def bbbCall : EntryPoint (Option Unit) Unit := .free "bbb" none []

/-- The serve call fails, the goroutine pushes, the `select` takes the error. -/
def bbbSchedule : List Action := [.serveReturns (some bbbError), .send, .selectErrChan]

/-- The state reached by `bbbCall` under `bbbSchedule`. -/
def bbbReturned : State (Option Unit) Unit :=
  { s := { Srv := { Addr := "bbb", Handler := none, onShutdown := [] },
           ShutdownTimeout := 5000000000,
           errChan := { cap := 1, buf := [] } },
    quit := { cap := 1, buf := [] },
    task := .exited,
    main := .returned (some (.wrapError
      "[graceful] listen tcp: address bbb: missing port in address"
      (.errorString "listen tcp: address bbb: missing port in address"))),
    launched := .ListenAndServe,
    served := some (some (.errorString "listen tcp: address bbb: missing port in address")),
    sent := [.wrapError "[graceful] listen tcp: address bbb: missing port in address"
      (.errorString "listen tcp: address bbb: missing port in address")],
    winner := some .errChan,
    shutdownCalls := [],
    shutdownReturnedAt := none }

/-- The start failure and a signal are both pending when the `select` is
resolved, and the error channel is taken. -/
def raceSchedule : List Action :=
  [.serveReturns (some bbbError), .send, .signal .SIGINT, .selectErrChan]

/-- The state reached by `bbbCall` under `raceSchedule`. -/
def raceReturned : State (Option Unit) Unit :=
  { bbbReturned with quit := { cap := 1, buf := [.SIGINT] } }

/-- The start failure and a signal are both pending when the `select` is
resolved, and the signal is taken; `Shutdown` is then called at the instant
100 and returns. -/
def pendingFailureSchedule : List Action :=
  [.serveReturns (some bbbError), .send, .signal .SIGINT, .selectQuit, .callShutdown 100,
    .shutdownReturns]

/-- The state reached by `bbbCall` under `pendingFailureSchedule` when no
connection is active and closing the listeners succeeds. -/
def pendingFailureReturned : State (Option Unit) Unit :=
  { s := { Srv := { Addr := "bbb", Handler := none, onShutdown := [] },
           ShutdownTimeout := 5000000000,
           errChan := { cap := 1, buf := [.wrapError
             "[graceful] listen tcp: address bbb: missing port in address"
             (.errorString "listen tcp: address bbb: missing port in address")] } },
    quit := { cap := 1, buf := [] },
    task := .exited,
    main := .returned none,
    launched := .ListenAndServe,
    served := some (some (.errorString "listen tcp: address bbb: missing port in address")),
    sent := [.wrapError "[graceful] listen tcp: address bbb: missing port in address"
      (.errorString "listen tcp: address bbb: missing port in address")],
    winner := some .quit,
    shutdownCalls := [({ deadline := some 5000000100 }, 100)],
    shutdownReturnedAt := some 100 }

/-- A run with a timeout of two seconds: `ListenAndServe(":8080", nil,
WithShutdownTimeout(2 * time.Second))`. -/
def twoSecondCall : EntryPoint (Option Unit) Unit :=
  .free ":8080" none [.shutdownTimeout (2 * Second)]

/-- A signal arrives and is taken; `Shutdown` is called at the instant 100 and
returns. -/
def signalSchedule : List Action :=
  [.signal .SIGTERM, .selectQuit, .callShutdown 100, .shutdownReturns]

/-- The state reached by `twoSecondCall` under `signalSchedule` when the active
connections need three seconds. -/
def twoSecondReturned : State (Option Unit) Unit :=
  { s := { Srv := { Addr := ":8080", Handler := none, onShutdown := [] },
           ShutdownTimeout := 2000000000,
           errChan := { cap := 1, buf := [] } },
    quit := { cap := 1, buf := [] },
    task := .serving,
    main := .returned (some .DeadlineExceeded),
    launched := .ListenAndServe,
    served := none,
    sent := [],
    winner := some .quit,
    shutdownCalls := [({ deadline := some 2000000100 }, 100)],
    shutdownReturnedAt := some 2000000100 }

/-- The options of a call with two timeouts and two callback lists. -/
def mixedOptions : List (OptionCall Nat) :=
  [.shutdownTimeout 3, .shutdownFunc [1], .shutdownTimeout 7, .shutdownFunc [2]]

/-! ## Lemmas on the options -/

section Proofs

variable {H F : Type}

theorem WithShutdownTimeout_apply (d : Duration) (s : Server H F) :
    (WithShutdownTimeout d).apply s = { s with ShutdownTimeout := d } := rfl

theorem registerAll_eq (fs : List F) (s : Server H F) :
    fs.foldl (fun s f => { s with Srv := s.Srv.RegisterOnShutdown f }) s
      = { s with Srv := { s.Srv with onShutdown := s.Srv.onShutdown ++ fs } } := by
  induction fs generalizing s with
  | nil => simp
  | cons f rest ih =>
    rw [List.foldl_cons, ih]
    simp [HttpServer.RegisterOnShutdown]

theorem WithShutdownFunc_apply (fs : List F) (s : Server H F) :
    (WithShutdownFunc fs).apply s
      = { s with Srv := { s.Srv with onShutdown := s.Srv.onShutdown ++ fs } } := by
  simp only [WithShutdownFunc, newOption, option.apply]
  exact registerAll_eq fs s

theorem load_nil (s : Server H F) : s.load [] = s := rfl

theorem load_cons (s : Server H F) (o : option H F) (opts : List (option H F)) :
    s.load (o :: opts) = (o.apply s).load opts := rfl

/-- Loading a list of constructor calls: the callbacks of the
`WithShutdownFunc` calls are appended in order, the timeout is that of the last
`WithShutdownTimeout` call if there is one, and nothing else changes. -/
theorem load_eval (calls : List (OptionCall F)) (s : Server H F) :
    s.load (calls.map OptionCall.eval)
      = { Srv := { s.Srv with onShutdown := s.Srv.onShutdown ++ shutdownFuncs calls },
          ShutdownTimeout := (lastShutdownTimeout calls).getD s.ShutdownTimeout,
          errChan := s.errChan } := by
  induction calls generalizing s with
  | nil => simp [load_nil, shutdownFuncs, lastShutdownTimeout]
  | cons c rest ih =>
    cases c with
    | shutdownTimeout d =>
      rw [List.map_cons, load_cons, ih]
      simp [OptionCall.eval, WithShutdownTimeout_apply, shutdownFuncs, lastShutdownTimeout]
    | shutdownFunc fs =>
      rw [List.map_cons, load_cons, ih]
      simp [OptionCall.eval, WithShutdownFunc_apply, shutdownFuncs, lastShutdownTimeout]

theorem shutdownFuncs_map (fss : List (List F)) :
    shutdownFuncs (fss.map OptionCall.shutdownFunc) = fss.flatten := by
  induction fss with
  | nil => rfl
  | cons fs rest ih => simp [shutdownFuncs, ih]

/-! ## Lemmas on the run -/

theorem exec_append (Shutdown : ShutdownFn) (st : State H F) (l1 l2 : List Action) :
    exec Shutdown st (l1 ++ l2)
      = (exec Shutdown st l1).bind fun st1 => exec Shutdown st1 l2 := by
  induction l1 generalizing st with
  | nil => rfl
  | cons a rest ih =>
    simp only [List.cons_append, exec]
    cases step Shutdown st a with
    | none => rfl
    | some st1 => exact ih st1

theorem exec_snoc (Shutdown : ShutdownFn) (st : State H F) (l : List Action) (a : Action) :
    exec Shutdown st (l ++ [a]) = (exec Shutdown st l).bind fun st1 => step Shutdown st1 a := by
  rw [exec_append]
  congr 1
  funext st1
  simp only [exec]
  cases step Shutdown st1 a <;> rfl

theorem Inv_start (Shutdown : ShutdownFn) (s : Server H F) (call : ServeCall)
    (calls : List (OptionCall F)) :
    Inv Shutdown (s.init.load (calls.map OptionCall.eval)) []
      ((s.init.load (calls.map OptionCall.eval)).waitForShutdown call) := by
  constructor <;>
    simp [Server.waitForShutdown, load_eval, Server.init, make, TaskInv, MainInv]

theorem Inv_signal (Shutdown : ShutdownFn) (s0 : Server H F) (sched : List Action)
    (st st1 : State H F) (sig : Signal) (hinv : Inv Shutdown s0 sched st)
    (h : step Shutdown st (.signal sig) = some st1) :
    Inv Shutdown s0 (sched ++ [.signal sig]) st1 := by
  obtain ⟨hsrv, hto, hec, hqc, htask, hmain, hsel, hcalls⟩ := hinv
  obtain ⟨s, quit, task, main, launched, served, sent, winner, calls, retAt⟩ := st
  simp only [step, Chan.send] at h
  by_cases hq : quit.buf.length < quit.cap
  · simp only [hq, if_true, Option.some.injEq] at h
    subst h
    exact ⟨hsrv, hto, hec, hqc, htask, hmain, by simpa [Action.isSelect] using hsel,
      by simpa [Action.isCallShutdown] using hcalls⟩
  · simp only [hq, if_false, Option.some.injEq] at h
    subst h
    exact ⟨hsrv, hto, hec, hqc, htask, hmain, by simpa [Action.isSelect] using hsel,
      by simpa [Action.isCallShutdown] using hcalls⟩

theorem Inv_serveReturns (Shutdown : ShutdownFn) (s0 : Server H F) (sched : List Action)
    (st st1 : State H F) (r : Option GoError) (hinv : Inv Shutdown s0 sched st)
    (h : step Shutdown st (.serveReturns r) = some st1) :
    Inv Shutdown s0 (sched ++ [.serveReturns r]) st1 := by
  obtain ⟨hsrv, hto, hec, hqc, htask, hmain, hsel, hcalls⟩ := hinv
  obtain ⟨s, quit, task, main, launched, served, sent, winner, calls, retAt⟩ := st
  cases task with
  | sending x => simp [step] at h
  | exited => simp [step] at h
  | serving =>
    obtain ⟨hs, hsent, hbuf⟩ := htask
    simp only at hs hsent hbuf
    have hm : MainInv Shutdown
        ({ s := s, quit := quit, task := .serving, main := main, launched := launched,
           served := served, sent := sent, winner := winner, shutdownCalls := calls,
           shutdownReturnedAt := retAt } : State H F) := hmain
    cases r with
    | none =>
      simp only [step, Option.some.injEq] at h
      subst h
      refine ⟨hsrv, hto, hec, hqc, ?_, hmain, by simpa [Action.isSelect] using hsel,
        by simpa [Action.isCallShutdown] using hcalls⟩
      exact ⟨none, rfl, by simp [hsent, pushedFor], by simp [hbuf, hsent]⟩
    | some err =>
      simp only [step] at h
      by_cases he : err = .ErrServerClosed
      · subst he
        simp only [ne_eq, not_true_eq_false, if_false, Option.some.injEq] at h
        subst h
        refine ⟨hsrv, hto, hec, hqc, ?_, hmain, by simpa [Action.isSelect] using hsel,
          by simpa [Action.isCallShutdown] using hcalls⟩
        exact ⟨some .ErrServerClosed, rfl, by simp [hsent, pushedFor], by simp [hbuf, hsent]⟩
      · simp only [he, ne_eq, not_false_eq_true, if_true, Option.some.injEq] at h
        subst h
        refine ⟨hsrv, hto, hec, hqc, ?_, hmain, by simpa [Action.isSelect] using hsel,
          by simpa [Action.isCallShutdown] using hcalls⟩
        exact ⟨err, rfl, he, rfl, hsent, hbuf⟩

theorem Inv_send (Shutdown : ShutdownFn) (s0 : Server H F) (sched : List Action)
    (st st1 : State H F) (hinv : Inv Shutdown s0 sched st)
    (h : step Shutdown st .send = some st1) : Inv Shutdown s0 (sched ++ [.send]) st1 := by
  obtain ⟨hsrv, hto, hec, hqc, htask, hmain, hsel, hcalls⟩ := hinv
  obtain ⟨s, quit, task, main, launched, served, sent, winner, calls, retAt⟩ := st
  cases task with
  | serving => simp [step] at h
  | exited => simp [step] at h
  | sending x =>
    obtain ⟨e, hs, hne, hx, hsent, hbuf⟩ := htask
    simp only at hs hsent hbuf hec hsrv hto
    simp only [step, Chan.send, hbuf, hec, List.length_nil, Nat.lt_one_iff, if_true,
      List.nil_append, Option.some.injEq] at h
    subst h
    have hw : winner ≠ some .errChan := by
      intro hw
      cases main <;> simp_all [MainInv]
    refine ⟨hsrv, hto, rfl, hqc, ?_, ?_, by simpa [Action.isSelect] using hsel,
      by simpa [Action.isCallShutdown] using hcalls⟩
    · exact ⟨some e, hs, by simp [hsent, hx, pushedFor, hne], by simp [hw, hsent]⟩
    · cases main <;> simp_all [MainInv]

theorem Inv_selectErrChan (Shutdown : ShutdownFn) (s0 : Server H F) (sched : List Action)
    (st st1 : State H F) (hinv : Inv Shutdown s0 sched st)
    (h : step Shutdown st .selectErrChan = some st1) :
    Inv Shutdown s0 (sched ++ [.selectErrChan]) st1 := by
  obtain ⟨hsrv, hto, hec, hqc, htask, hmain, hsel, hcalls⟩ := hinv
  obtain ⟨s, quit, task, main, launched, served, sent, winner, calls, retAt⟩ := st
  cases main with
  | signalled => simp [step] at h
  | inShutdown ctx t => simp [step] at h
  | returned err => simp [step] at h
  | selecting =>
    obtain ⟨hw, hc, hr⟩ := hmain
    simp only at hw hc hr hec hsrv hto
    subst hw hc hr
    cases task with
    | serving =>
      obtain ⟨_, _, hbuf⟩ := htask
      simp only at hbuf
      simp [step, Chan.recv, hbuf] at h
    | sending x =>
      obtain ⟨e, _, _, _, _, hbuf⟩ := htask
      simp only at hbuf
      simp [step, Chan.recv, hbuf] at h
    | exited =>
      obtain ⟨r, hs, hsent, hbuf⟩ := htask
      simp only [reduceCtorEq, if_false] at hs hsent hbuf
      cases hb : s.errChan.buf with
      | nil => simp [step, Chan.recv, hb] at h
      | cons v rest =>
        simp only [step, Chan.recv, hb, Option.some.injEq] at h
        subst h
        have hlen : sent.length ≤ 1 := by
          rw [hsent]
          unfold pushedFor
          split
          · split <;> simp
          · simp
        rw [hbuf] at hb
        have hrest : rest = [] := by
          rw [hb] at hlen
          simpa using hlen
        subst hrest
        refine ⟨hsrv, hto, hec, hqc, ?_, ?_, ?_, by simpa [Action.isCallShutdown] using hcalls⟩
        · exact ⟨r, hs, hsent, by simp⟩
        · left
          exact ⟨rfl, rfl, rfl, v, rfl, hb⟩
        · simp [Action.isSelect, hsel]

theorem Inv_selectQuit (Shutdown : ShutdownFn) (s0 : Server H F) (sched : List Action)
    (st st1 : State H F) (hinv : Inv Shutdown s0 sched st)
    (h : step Shutdown st .selectQuit = some st1) :
    Inv Shutdown s0 (sched ++ [.selectQuit]) st1 := by
  obtain ⟨hsrv, hto, hec, hqc, htask, hmain, hsel, hcalls⟩ := hinv
  obtain ⟨s, quit, task, main, launched, served, sent, winner, calls, retAt⟩ := st
  cases main with
  | signalled => simp [step] at h
  | inShutdown ctx t => simp [step] at h
  | returned err => simp [step] at h
  | selecting =>
    obtain ⟨hw, hc, hr⟩ := hmain
    simp only at hw hc hr hec hsrv hto hqc
    subst hw hc hr
    cases hb : quit.buf with
    | nil => simp [step, Chan.recv, hb] at h
    | cons v rest =>
      simp only [step, Chan.recv, hb, Option.some.injEq] at h
      subst h
      refine ⟨hsrv, hto, hec, hqc, ?_, ⟨rfl, rfl, rfl⟩, ?_,
        by simpa [Action.isCallShutdown] using hcalls⟩
      · cases task <;> simpa [TaskInv] using htask
      · simp [Action.isSelect, hsel]

theorem Inv_callShutdown (Shutdown : ShutdownFn) (s0 : Server H F) (sched : List Action)
    (st st1 : State H F) (now : Time) (hinv : Inv Shutdown s0 sched st)
    (h : step Shutdown st (.callShutdown now) = some st1) :
    Inv Shutdown s0 (sched ++ [.callShutdown now]) st1 := by
  obtain ⟨hsrv, hto, hec, hqc, htask, hmain, hsel, hcalls⟩ := hinv
  obtain ⟨s, quit, task, main, launched, served, sent, winner, calls, retAt⟩ := st
  cases main with
  | selecting => simp [step] at h
  | inShutdown ctx t => simp [step] at h
  | returned err => simp [step] at h
  | signalled =>
    obtain ⟨hw, hc, hr⟩ := hmain
    simp only at hw hc hr hec hsrv hto hqc
    subst hw hc hr
    simp only [step, List.nil_append, Option.some.injEq] at h
    subst h
    refine ⟨hsrv, hto, hec, hqc, ?_, ⟨rfl, rfl, rfl, rfl⟩, by simpa [Action.isSelect] using hsel,
      ?_⟩
    · cases task <;> simpa [TaskInv] using htask
    · simp [Action.isCallShutdown, hcalls]

theorem Inv_shutdownReturns (Shutdown : ShutdownFn) (s0 : Server H F) (sched : List Action)
    (st st1 : State H F) (hinv : Inv Shutdown s0 sched st)
    (h : step Shutdown st .shutdownReturns = some st1) :
    Inv Shutdown s0 (sched ++ [.shutdownReturns]) st1 := by
  obtain ⟨hsrv, hto, hec, hqc, htask, hmain, hsel, hcalls⟩ := hinv
  obtain ⟨s, quit, task, main, launched, served, sent, winner, calls, retAt⟩ := st
  cases main with
  | selecting => simp [step] at h
  | signalled => simp [step] at h
  | returned err => simp [step] at h
  | inShutdown ctx t =>
    obtain ⟨hw, hc, hctx, hr⟩ := hmain
    simp only at hw hc hr hec hsrv hto hqc hctx
    subst hw hc hr
    cases hS : Shutdown ctx t with
    | none => simp [step, hS] at h
    | some ret =>
      simp only [step, hS, Option.some.injEq] at h
      subst h
      refine ⟨hsrv, hto, hec, hqc, ?_, ?_, by simpa [Action.isSelect] using hsel,
        by simpa [Action.isCallShutdown] using hcalls⟩
      · cases task <;> simpa [TaskInv] using htask
      · right
        exact ⟨rfl, ctx, t, ret, rfl, hctx, hS, rfl, rfl⟩

theorem Inv_step (Shutdown : ShutdownFn) (s0 : Server H F) (sched : List Action)
    (st st1 : State H F) (a : Action) (hinv : Inv Shutdown s0 sched st)
    (h : step Shutdown st a = some st1) : Inv Shutdown s0 (sched ++ [a]) st1 := by
  cases a with
  | serveReturns r => exact Inv_serveReturns Shutdown s0 sched st st1 r hinv h
  | send => exact Inv_send Shutdown s0 sched st st1 hinv h
  | signal sig => exact Inv_signal Shutdown s0 sched st st1 sig hinv h
  | selectErrChan => exact Inv_selectErrChan Shutdown s0 sched st st1 hinv h
  | selectQuit => exact Inv_selectQuit Shutdown s0 sched st st1 hinv h
  | callShutdown now => exact Inv_callShutdown Shutdown s0 sched st st1 now hinv h
  | shutdownReturns => exact Inv_shutdownReturns Shutdown s0 sched st st1 hinv h

/-- Every state reached from a state that satisfies the invariant satisfies
it. -/
theorem Inv_exec (Shutdown : ShutdownFn) (s0 : Server H F) (st0 : State H F)
    (h0 : Inv Shutdown s0 [] st0) (sched : List Action) (st : State H F)
    (h : exec Shutdown st0 sched = some st) : Inv Shutdown s0 sched st := by
  induction sched using List.reverseRecOn generalizing st with
  | nil =>
    simp only [exec, Option.some.injEq] at h
    subst h
    exact h0
  | append_singleton l a ih =>
    rw [exec_snoc] at h
    cases hl : exec Shutdown st0 l with
    | none => simp [hl] at h
    | some st1 =>
      rw [hl] at h
      exact Inv_step Shutdown s0 l st1 st a (ih st1 hl) h

theorem Inv_entry (Shutdown : ShutdownFn) (ep : EntryPoint H F) (sched : List Action)
    (st : State H F) (h : exec Shutdown ep.start sched = some st) :
    Inv Shutdown ep.start.s sched st := by
  cases ep with
  | method s opts => exact Inv_exec _ _ _ (Inv_start Shutdown s _ opts) sched st h
  | methodTLS s certFile keyFile opts =>
    exact Inv_exec _ _ _ (Inv_start Shutdown s _ opts) sched st h
  | free addr handler opts => exact Inv_exec _ _ _ (Inv_start Shutdown _ _ opts) sched st h
  | freeTLS addr certFile keyFile handler opts =>
    exact Inv_exec _ _ _ (Inv_start Shutdown _ _ opts) sched st h

theorem wrapError_ne (msg : String) (e : GoError) : GoError.wrapError msg e ≠ e := by
  intro h
  have hs := congrArg sizeOf h
  simp at hs

theorem Errorf_ne (e : GoError) : Errorf e ≠ e := wrapError_ne _ e

theorem Errorf_Error (e : GoError) : (Errorf e).Error = "[graceful] " ++ e.Error := rfl

/-- The state of the goroutine, read off the invariant. -/
theorem Inv.task_cases {Shutdown : ShutdownFn} {s0 : Server H F} {sched : List Action}
    {st : State H F} (hinv : Inv Shutdown s0 sched st) :
    (st.task = .serving ∧ st.served = none ∧ st.sent = [] ∧ st.s.errChan.buf = [])
    ∨ (∃ e, st.task = .sending (Errorf e) ∧ st.served = some (some e) ∧ e ≠ .ErrServerClosed
        ∧ st.sent = [] ∧ st.s.errChan.buf = [])
    ∨ (∃ r, st.task = .exited ∧ st.served = some r ∧ st.sent = pushedFor r
        ∧ st.s.errChan.buf = if st.winner = some .errChan then [] else st.sent) := by
  obtain ⟨_, _, _, _, htask, _, _, _⟩ := hinv
  obtain ⟨s, quit, task, main, launched, served, sent, winner, calls, retAt⟩ := st
  cases task with
  | serving => exact Or.inl ⟨rfl, htask⟩
  | sending x =>
    obtain ⟨e, hs, hne, hx, hsent, hbuf⟩ := htask
    subst hx
    exact Or.inr (Or.inl ⟨e, rfl, hs, hne, hsent, hbuf⟩)
  | exited =>
    obtain ⟨r, hs, hsent, hbuf⟩ := htask
    exact Or.inr (Or.inr ⟨r, rfl, hs, hsent, hbuf⟩)

/-- The state of the caller, read off the invariant. -/
theorem Inv.main_cases {Shutdown : ShutdownFn} {s0 : Server H F} {sched : List Action}
    {st : State H F} (hinv : Inv Shutdown s0 sched st) :
    (st.main = .selecting ∧ st.winner = none ∧ st.shutdownCalls = []
        ∧ st.shutdownReturnedAt = none)
    ∨ (st.main = .signalled ∧ st.winner = some .quit ∧ st.shutdownCalls = []
        ∧ st.shutdownReturnedAt = none)
    ∨ (∃ now, st.main = .inShutdown (WithTimeout Background st.s.ShutdownTimeout now) now
        ∧ st.winner = some .quit
        ∧ st.shutdownCalls = [(WithTimeout Background st.s.ShutdownTimeout now, now)]
        ∧ st.shutdownReturnedAt = none)
    ∨ (∃ e, st.main = .returned (some e) ∧ st.winner = some .errChan ∧ st.shutdownCalls = []
        ∧ st.shutdownReturnedAt = none ∧ st.sent = [e])
    ∨ (∃ now ret, st.main = .returned ret.err ∧ st.winner = some .quit
        ∧ st.shutdownCalls = [(WithTimeout Background st.s.ShutdownTimeout now, now)]
        ∧ Shutdown (WithTimeout Background st.s.ShutdownTimeout now) now = some ret
        ∧ st.shutdownReturnedAt = some ret.returnedAt) := by
  obtain ⟨_, _, _, _, _, hmain, _, _⟩ := hinv
  obtain ⟨s, quit, task, main, launched, served, sent, winner, calls, retAt⟩ := st
  cases main with
  | selecting => exact Or.inl ⟨rfl, hmain⟩
  | signalled => exact Or.inr (Or.inl ⟨rfl, hmain⟩)
  | inShutdown ctx t =>
    obtain ⟨hw, hc, hctx, hr⟩ := hmain
    simp only at hw hc hctx hr ⊢
    subst hctx
    exact Or.inr (Or.inr (Or.inl ⟨t, rfl, hw, hc, hr⟩))
  | returned err =>
    rcases hmain with ⟨hw, hc, hr, e, he, hsent⟩ | ⟨hw, ctx, t, ret, hc, hctx, hS, he, hr⟩
    · subst he
      exact Or.inr (Or.inr (Or.inr (Or.inl ⟨e, rfl, hw, hc, hr, hsent⟩)))
    · simp only at hw hc hctx hr hS he ⊢
      subst hctx he
      exact Or.inr (Or.inr (Or.inr (Or.inr ⟨t, ret, rfl, hw, hc, hS, hr⟩)))

/-- When the error channel has won the race: the serve call had failed with
an error `e` other than the sentinel, the run has returned `Errorf e` and
`Shutdown` has not been invoked. -/
theorem Inv.of_errChan {Shutdown : ShutdownFn} {s0 : Server H F} {sched : List Action}
    {st : State H F} (hinv : Inv Shutdown s0 sched st) (hw : st.winner = some .errChan) :
    ∃ e, st.served = some (some e) ∧ e ≠ .ErrServerClosed
      ∧ st.main = .returned (some (Errorf e)) ∧ st.sent = [Errorf e]
      ∧ st.shutdownCalls = [] ∧ st.shutdownReturnedAt = none := by
  rcases hinv.main_cases with ⟨_, h, _⟩ | ⟨_, h, _⟩ | ⟨_, _, h, _⟩ | ⟨e1, hm, _, hc, hr, hsent⟩
    | ⟨_, _, _, h, _⟩
  · rw [hw] at h
    cases h
  · rw [hw] at h
    cases h
  · rw [hw] at h
    cases h
  · rcases hinv.task_cases with ⟨_, _, h, _⟩ | ⟨_, _, _, _, h, _⟩ | ⟨r, _, hs, hp, _⟩
    · rw [hsent] at h
      cases h
    · rw [hsent] at h
      cases h
    · rw [hsent] at hp
      cases r with
      | none => simp [pushedFor] at hp
      | some e =>
        by_cases he : e = .ErrServerClosed
        · simp [pushedFor, he] at hp
        · simp only [pushedFor, ne_eq, he, not_false_eq_true, if_true, List.cons.injEq,
            and_true] at hp
          subst hp
          exact ⟨e, hs, he, hm, hsent, hc, hr⟩
  · rw [hw] at h
    cases h

/-- When the signal has won the race: whatever was pushed is still in the
error channel, and the caller is about to invoke `Shutdown`, is inside it, or
has returned what it returned. -/
theorem Inv.of_quit {Shutdown : ShutdownFn} {s0 : Server H F} {sched : List Action}
    {st : State H F} (hinv : Inv Shutdown s0 sched st) (hw : st.winner = some .quit) :
    st.s.errChan.buf = st.sent
    ∧ ((st.main = .signalled ∧ st.shutdownCalls = [] ∧ st.shutdownReturnedAt = none)
      ∨ (∃ now, st.main = .inShutdown (WithTimeout Background st.s.ShutdownTimeout now) now
          ∧ st.shutdownCalls = [(WithTimeout Background st.s.ShutdownTimeout now, now)]
          ∧ st.shutdownReturnedAt = none)
      ∨ (∃ now ret, st.main = .returned ret.err
          ∧ st.shutdownCalls = [(WithTimeout Background st.s.ShutdownTimeout now, now)]
          ∧ Shutdown (WithTimeout Background st.s.ShutdownTimeout now) now = some ret
          ∧ st.shutdownReturnedAt = some ret.returnedAt)) := by
  constructor
  · rcases hinv.task_cases with ⟨_, _, h1, h2⟩ | ⟨_, _, _, _, h1, h2⟩ | ⟨r, _, _, _, h⟩
    · rw [h1, h2]
    · rw [h1, h2]
    · rw [h, hw]
      simp
  · rcases hinv.main_cases with ⟨_, h, _⟩ | ⟨hm, _, hc, hr⟩ | ⟨now, hm, _, hc, hr⟩
      | ⟨_, _, h, _⟩ | ⟨now, ret, hm, _, hc, hS, hr⟩
    · rw [hw] at h
      cases h
    · exact Or.inl ⟨hm, hc, hr⟩
    · exact Or.inr (Or.inl ⟨now, hm, hc, hr⟩)
    · rw [hw] at h
      cases h
    · exact Or.inr (Or.inr ⟨now, ret, hm, hc, hS, hr⟩)

/-! ## The claims -/

/-- A step other than the arrival of a signal leaves an empty `quit` empty,
and then cannot take the case `<-quit`. -/
theorem step_without_signal (Shutdown : ShutdownFn) (st st1 : State H F) (a : Action)
    (h : step Shutdown st a = some st1) (hns : ∀ sig, a ≠ .signal sig)
    (hq : st.quit.buf = []) (hw : st.winner ≠ some .quit) :
    st1.quit.buf = [] ∧ st1.winner ≠ some .quit := by
  obtain ⟨s, quit, task, main, launched, served, sent, winner, calls, retAt⟩ := st
  simp only at hq hw
  cases a with
  | signal sig => exact absurd rfl (hns sig)
  | serveReturns r =>
    cases task with
    | serving =>
      cases r with
      | none =>
        simp only [step, Option.some.injEq] at h
        subst h
        exact ⟨hq, hw⟩
      | some err =>
        simp only [step] at h
        split at h <;> (simp only [Option.some.injEq] at h; subst h; exact ⟨hq, hw⟩)
    | sending x => simp [step] at h
    | exited => simp [step] at h
  | send =>
    cases task with
    | serving => simp [step] at h
    | exited => simp [step] at h
    | sending x =>
      simp only [step] at h
      split at h
      · simp only [Option.some.injEq] at h
        subst h
        exact ⟨hq, hw⟩
      · cases h
  | selectErrChan =>
    cases main with
    | selecting =>
      simp only [step] at h
      split at h
      · simp only [Option.some.injEq] at h
        subst h
        exact ⟨hq, by simp⟩
      · cases h
    | signalled => simp [step] at h
    | inShutdown ctx t => simp [step] at h
    | returned err => simp [step] at h
  | selectQuit =>
    cases main with
    | selecting => simp [step, Chan.recv, hq] at h
    | signalled => simp [step] at h
    | inShutdown ctx t => simp [step] at h
    | returned err => simp [step] at h
  | callShutdown now =>
    cases main with
    | signalled =>
      simp only [step, Option.some.injEq] at h
      subst h
      exact ⟨hq, hw⟩
    | selecting => simp [step] at h
    | inShutdown ctx t => simp [step] at h
    | returned err => simp [step] at h
  | shutdownReturns =>
    cases main with
    | inShutdown ctx t =>
      simp only [step] at h
      split at h
      · simp only [Option.some.injEq] at h
        subst h
        exact ⟨hq, hw⟩
      · cases h
    | selecting => simp [step] at h
    | signalled => simp [step] at h
    | returned err => simp [step] at h

/-- In a schedule without a signal the case `<-quit` is never taken. -/
theorem exec_without_signal (Shutdown : ShutdownFn) (st0 : State H F) (sched : List Action)
    (st : State H F) (h : exec Shutdown st0 sched = some st)
    (hns : ∀ sig, Action.signal sig ∉ sched)
    (hq : st0.quit.buf = []) (hw : st0.winner ≠ some .quit) :
    st.quit.buf = [] ∧ st.winner ≠ some .quit := by
  induction sched generalizing st0 with
  | nil =>
    simp only [exec, Option.some.injEq] at h
    subst h
    exact ⟨hq, hw⟩
  | cons a rest ih =>
    simp only [exec] at h
    cases hstep : step Shutdown st0 a with
    | none => simp [hstep] at h
    | some st1 =>
      rw [hstep] at h
      have ha : ∀ sig, a ≠ .signal sig := by
        intro sig heq
        exact hns sig (heq ▸ List.mem_cons_self _ _)
      obtain ⟨hq1, hw1⟩ := step_without_signal Shutdown st0 st1 a hstep ha hq hw
      exact ih st1 h (fun sig hmem => hns sig (List.mem_cons_of_mem _ hmem)) hq1 hw1

theorem EntryPoint.start_quit (ep : EntryPoint H F) :
    ep.start.quit.buf = [] ∧ ep.start.winner ≠ some .quit := by
  cases ep <;> exact ⟨rfl, by simp [EntryPoint.start, ListenAndServe, ListenAndServeTLS,
    Server.ListenAndServe, Server.ListenAndServeTLS, Server.waitForShutdown]⟩

/-- While the `select` is unresolved, a start failure that the serve call has
reported can be taken from the error channel: the push is never blocked. -/
theorem failure_can_win (Shutdown : ShutdownFn) (s0 : Server H F) (sched : List Action)
    (st : State H F) (e : GoError) (hinv : Inv Shutdown s0 sched st)
    (hserved : st.served = some (some e)) (hne : e ≠ .ErrServerClosed)
    (hm : st.main = .selecting) :
    ∃ more st2, exec Shutdown st more = some st2 ∧ st2.winner = some .errChan
      ∧ st2.result = some (some (Errorf e)) := by
  have hec := hinv.errCap
  have hw : st.winner = none := by
    rcases hinv.main_cases with ⟨_, h, _⟩ | ⟨h, _⟩ | ⟨_, h, _⟩ | ⟨_, h, _⟩ | ⟨_, _, h, _⟩
    · exact h
    all_goals (rw [hm] at h; cases h)
  rcases hinv.task_cases with ⟨_, h, _⟩ | ⟨e1, ht, hs, _, _, hbuf⟩ | ⟨r, ht, hs, hp, hbuf⟩
  · rw [hserved] at h
    cases h
  · rw [hserved] at hs
    cases hs
    refine ⟨[.send, .selectErrChan], ?_⟩
    obtain ⟨s, quit, task, main, launched, served, sent, winner, calls, retAt⟩ := st
    simp only at hm ht hbuf hec
    subst hm ht
    simp [exec, step, Chan.send, Chan.recv, hbuf, hec, State.result]
  · rw [hserved] at hs
    cases hs
    rw [hw] at hbuf
    simp only [pushedFor, ne_eq, hne, not_false_eq_true, if_true] at hp
    simp only [reduceCtorEq, if_false, hp] at hbuf
    refine ⟨[.selectErrChan], ?_⟩
    obtain ⟨s, quit, task, main, launched, served, sent, winner, calls, retAt⟩ := st
    simp only at hm ht hbuf hec
    subst hm ht
    simp [exec, step, Chan.recv, hbuf, State.result]

/-- C1: when the serve call has returned an error `e` that is neither nil nor
the sentinel and the `select` has taken the error channel, the run has
returned the error `fmt.Errorf("[graceful] %w", e)`, whose text is
`"[graceful] "` followed by the text of `e` and which unwraps to `e`; this
holds for every entry point. While the `select` is still unresolved such a
failure can always win the race: the run can proceed to return that error. In
a run without a signal that error is the only value the run can return. -/
theorem start_failure_is_tagged (Shutdown : ShutdownFn) (ep : EntryPoint H F)
    (sched : List Action) (st : State H F) (e : GoError)
    (hrun : exec Shutdown ep.start sched = some st)
    (hserved : st.served = some (some e)) (hne : e ≠ .ErrServerClosed) :
    (st.winner = some .errChan →
      st.result = some (some (Errorf e))
        ∧ (Errorf e).Error = "[graceful] " ++ e.Error
        ∧ (Errorf e).Unwrap = some e)
    ∧ (st.main = .selecting →
      ∃ more st2, exec Shutdown st more = some st2 ∧ st2.winner = some .errChan
        ∧ st2.result = some (some (Errorf e)))
    ∧ ((∀ sig, Action.signal sig ∉ sched) →
      ∀ err, st.result = some err → err = some (Errorf e)) := by
  have hinv := Inv_entry Shutdown ep sched st hrun
  have hwin : st.winner = some .errChan → st.result = some (some (Errorf e)) := by
    intro hw
    obtain ⟨e1, hs, _, hm, _⟩ := hinv.of_errChan hw
    rw [hserved] at hs
    cases hs
    simp [State.result, hm]
  refine ⟨fun hw => ⟨hwin hw, rfl, rfl⟩, ?_, ?_⟩
  · exact failure_can_win Shutdown _ sched st e hinv hserved hne
  · intro hns err hres
    have hnq := (exec_without_signal Shutdown ep.start sched st hrun hns ep.start_quit.1
      ep.start_quit.2).2
    rcases hinv.main_cases with ⟨hm, _⟩ | ⟨hm, _⟩ | ⟨_, hm, _⟩ | ⟨_, _, hw, _⟩ | ⟨_, _, _, hw, _⟩
    · simp [State.result, hm] at hres
    · simp [State.result, hm] at hres
    · simp [State.result, hm] at hres
    · rw [hwin hw] at hres
      exact (Option.some.inj hres).symm
    · exact absurd hw hnq

/-- From line 74 on the caller invokes `Shutdown` and returns what it
returns, as soon as it returns. -/
theorem signalled_proceeds (Shutdown : ShutdownFn) (st : State H F) (now : Time)
    (ret : ShutdownReturn) (hm : st.main = .signalled)
    (hS : Shutdown (WithTimeout Background st.s.ShutdownTimeout now) now = some ret) :
    ∃ st2, exec Shutdown st [.callShutdown now, .shutdownReturns] = some st2
      ∧ st2.shutdownCalls
          = st.shutdownCalls ++ [(WithTimeout Background st.s.ShutdownTimeout now, now)]
      ∧ st2.result = some ret.err
      ∧ st2.shutdownReturnedAt = some ret.returnedAt := by
  obtain ⟨s, quit, task, main, launched, served, sent, winner, calls, retAt⟩ := st
  simp only at hm hS
  subst hm
  simp [exec, step, hS, State.result]

theorem inShutdown_proceeds (Shutdown : ShutdownFn) (st : State H F) (ctx : Context)
    (now : Time) (ret : ShutdownReturn) (hm : st.main = .inShutdown ctx now)
    (hS : Shutdown ctx now = some ret) :
    ∃ st2, exec Shutdown st [.shutdownReturns] = some st2
      ∧ st2.shutdownCalls = st.shutdownCalls
      ∧ st2.result = some ret.err
      ∧ st2.shutdownReturnedAt = some ret.returnedAt := by
  obtain ⟨s, quit, task, main, launched, served, sent, winner, calls, retAt⟩ := st
  simp only at hm hS
  subst hm
  simp [exec, step, hS, State.result]

/-- C3: in every run in which the `select` has taken the signal, nothing is
taken from the error channel (what was pushed is still in it); the caller
invokes `Shutdown` with the context built from `ShutdownTimeout` and, when
`Shutdown` returns, returns exactly its result: nil for nil, and otherwise
its error as it is, not wrapped with the tag. -/
theorem signal_path_returns_shutdown_result (Shutdown : ShutdownFn) (ep : EntryPoint H F)
    (sched : List Action) (st : State H F)
    (hrun : exec Shutdown ep.start sched = some st) (hw : st.winner = some .quit) :
    st.s.errChan.buf = st.sent
    ∧ (st.result = none →
        (st.main = .signalled ∧ st.shutdownCalls = [])
        ∨ ∃ now, st.main = .inShutdown (WithTimeout Background st.s.ShutdownTimeout now) now
            ∧ st.shutdownCalls = [(WithTimeout Background st.s.ShutdownTimeout now, now)])
    ∧ (st.main = .signalled → ∀ now ret,
        Shutdown (WithTimeout Background st.s.ShutdownTimeout now) now = some ret →
        ∃ st2, exec Shutdown st [.callShutdown now, .shutdownReturns] = some st2
          ∧ st2.shutdownCalls = [(WithTimeout Background st.s.ShutdownTimeout now, now)]
          ∧ st2.result = some ret.err)
    ∧ (∀ ctx now ret, st.main = .inShutdown ctx now → Shutdown ctx now = some ret →
        ∃ st2, exec Shutdown st [.shutdownReturns] = some st2
          ∧ st2.shutdownCalls = [(ctx, now)] ∧ st2.result = some ret.err)
    ∧ (∀ err, st.result = some err →
        ∃ now ret,
          st.shutdownCalls = [(WithTimeout Background st.s.ShutdownTimeout now, now)]
          ∧ Shutdown (WithTimeout Background st.s.ShutdownTimeout now) now = some ret
          ∧ err = ret.err
          ∧ ∀ e, ret.err = some e → err ≠ some (Errorf e)) := by
  have hinv := Inv_entry Shutdown ep sched st hrun
  obtain ⟨hbuf, hcases⟩ := hinv.of_quit hw
  refine ⟨hbuf, ?_, ?_, ?_, ?_⟩
  · intro hres
    rcases hcases with ⟨hm, hc, _⟩ | ⟨now, hm, hc, _⟩ | ⟨now, ret, hm, _⟩
    · exact Or.inl ⟨hm, hc⟩
    · exact Or.inr ⟨now, hm, hc⟩
    · simp [State.result, hm] at hres
  · intro hm now ret hS
    obtain ⟨st2, h1, h2, h3, _⟩ := signalled_proceeds Shutdown st now ret hm hS
    rcases hcases with ⟨_, hc, _⟩ | ⟨_, hm2, _⟩ | ⟨_, _, hm2, _⟩
    · rw [hc] at h2
      exact ⟨st2, h1, h2, h3⟩
    · rw [hm] at hm2
      cases hm2
    · rw [hm] at hm2
      cases hm2
  · intro ctx now ret hm hS
    obtain ⟨st2, h1, h2, h3, _⟩ := inShutdown_proceeds Shutdown st ctx now ret hm hS
    rcases hcases with ⟨hm2, _⟩ | ⟨now2, hm2, hc, _⟩ | ⟨_, _, hm2, _⟩
    · rw [hm] at hm2
      cases hm2
    · rw [hm] at hm2
      cases hm2
      rw [hc] at h2
      exact ⟨st2, h1, h2, h3⟩
    · rw [hm] at hm2
      cases hm2
  · intro err hres
    rcases hcases with ⟨hm, _⟩ | ⟨_, hm, _⟩ | ⟨now, ret, hm, hc, hS, _⟩
    · simp [State.result, hm] at hres
    · simp [State.result, hm] at hres
    · simp only [State.result, hm, Option.some.injEq] at hres
      subst hres
      refine ⟨now, ret, hc, hS, rfl, ?_⟩
      intro e he
      rw [he]
      intro h
      exact Errorf_ne e (Option.some.inj h).symm

/-- C4: in every run `Shutdown` is invoked at most once and the `select` is
resolved at most once. When the error channel has won, the run has returned
the wrapped start error and `Shutdown` has not been invoked; when the signal
has won, `Shutdown` is invoked exactly once, namely as soon as the caller takes
its next step. -/
theorem shutdown_at_most_once (Shutdown : ShutdownFn) (ep : EntryPoint H F)
    (sched : List Action) (st : State H F)
    (hrun : exec Shutdown ep.start sched = some st) :
    sched.countP Action.isCallShutdown = st.shutdownCalls.length
    ∧ st.shutdownCalls.length ≤ 1
    ∧ sched.countP Action.isSelect ≤ 1
    ∧ (sched.countP Action.isSelect = 1 ↔ st.winner ≠ none)
    ∧ (st.winner = none → st.shutdownCalls = [] ∧ st.result = none)
    ∧ (st.winner = some .errChan →
        st.shutdownCalls = [] ∧ sched.countP Action.isCallShutdown = 0
        ∧ ∃ e, st.served = some (some e) ∧ e ≠ .ErrServerClosed
            ∧ st.result = some (some (Errorf e)))
    ∧ (st.winner = some .quit →
        (st.main = .signalled ∧ st.shutdownCalls = []
          ∧ ∀ now, ∃ st2, step Shutdown st (.callShutdown now) = some st2
              ∧ st2.shutdownCalls.length = 1)
        ∨ (st.main ≠ .signalled ∧ st.shutdownCalls.length = 1
            ∧ sched.countP Action.isCallShutdown = 1)) := by
  have hinv := Inv_entry Shutdown ep sched st hrun
  have hcalls := hinv.calls
  have hsel := hinv.selects
  refine ⟨hcalls, ?_, ?_, ?_, ?_, ?_, ?_⟩
  · rcases hinv.main_cases with ⟨_, _, h, _⟩ | ⟨_, _, h, _⟩ | ⟨_, _, _, h, _⟩ | ⟨_, _, _, h, _⟩
      | ⟨_, _, _, _, h, _⟩ <;> simp [h]
  · rw [hsel]
    split <;> simp
  · rw [hsel]
    split <;> simp_all
  · intro hw
    rcases hinv.main_cases with ⟨hm, _, h, _⟩ | ⟨_, h, _⟩ | ⟨_, _, h, _⟩ | ⟨_, _, h, _⟩
      | ⟨_, _, _, h, _⟩
    · exact ⟨h, by simp [State.result, hm]⟩
    all_goals (rw [hw] at h; cases h)
  · intro hw
    obtain ⟨e, hs, hne, hm, _, hc, _⟩ := hinv.of_errChan hw
    refine ⟨hc, ?_, e, hs, hne, by simp [State.result, hm]⟩
    rw [hcalls, hc]
    rfl
  · intro hw
    rcases (hinv.of_quit hw).2 with ⟨hm, hc, _⟩ | ⟨now, hm, hc, _⟩ | ⟨now, ret, hm, hc, _⟩
    · left
      refine ⟨hm, hc, ?_⟩
      intro now
      obtain ⟨s, quit, task, main, launched, served, sent, winner, calls, retAt⟩ := st
      simp only at hm hc
      subst hm hc
      simp [step]
    · right
      refine ⟨by simp [hm], by simp [hc], by simp [hcalls, hc]⟩
    · right
      refine ⟨by simp [hm], by simp [hc], by simp [hcalls, hc]⟩

theorem WithTimeout_Background (t : Duration) (now : Time) :
    WithTimeout Background t now = { deadline := some (now + t) } := rfl

/-- A context built with a timeout that is zero or negative has expired
when it is built. -/
theorem nonpositive_timeout_is_expired (t : Duration) (now : Time) (ht : t ≤ 0) :
    (WithTimeout Background t now).Err now = some .DeadlineExceeded := by
  simp only [WithTimeout_Background, Context.Err]
  rw [if_pos]
  linarith

/-- What the collaborator's `Shutdown` does with a context of positive
timeout `t` when the connections need longer than `t`. -/
theorem httpShutdown_exceeds (lnerr : Option GoError) (busy : Option Duration) (t : Duration)
    (now : Time) (ht : 0 < t) (hbusy : ∀ w, busy = some w → t < w) :
    httpShutdown lnerr busy (WithTimeout Background t now) now
      = some { err := some .DeadlineExceeded, returnedAt := now + t } := by
  have hle : now ≤ now + t := by linarith
  have hmax : max (now + t) now = now + t := max_eq_left hle
  cases busy with
  | none => simp [httpShutdown, WithTimeout_Background, Context.Err, hmax]
  | some w =>
    have hw : t < w := hbusy w rfl
    have h1 : ¬ w ≤ 0 := by linarith
    have h2 : now + t ≤ now + w := by linarith
    simp [httpShutdown, WithTimeout_Background, Context.Err, hmax, h1, h2]

/-- C6: with the standard collaborator and a configured timeout `t > 0`, every
context handed to `Shutdown` expires exactly `t` after the call (not before);
when the signal has won the caller hands over such a context, and if the
active connections need longer than `t` the call returns
`context.DeadlineExceeded` at the instant `now + t`, and the run returns that
error. -/
theorem positive_timeout_bounds_shutdown (lnerr : Option GoError) (busy : Option Duration)
    (ep : EntryPoint H F) (sched : List Action) (st : State H F)
    (hrun : exec (httpShutdown lnerr busy) ep.start sched = some st)
    (ht : 0 < st.s.ShutdownTimeout) :
    (∀ ctx now, (ctx, now) ∈ st.shutdownCalls →
        ctx.deadline = some (now + st.s.ShutdownTimeout)
        ∧ ∀ τ, ctx.Err τ = some .DeadlineExceeded ↔ now + st.s.ShutdownTimeout ≤ τ)
    ∧ (st.main = .signalled → ∀ now,
        ∃ st2, step (httpShutdown lnerr busy) st (.callShutdown now) = some st2
          ∧ st2.main = .inShutdown { deadline := some (now + st.s.ShutdownTimeout) } now
          ∧ st2.shutdownCalls = [({ deadline := some (now + st.s.ShutdownTimeout) }, now)])
    ∧ ((∀ w, busy = some w → st.s.ShutdownTimeout < w) →
        (∀ ctx now, st.main = .inShutdown ctx now →
          ∃ st2, step (httpShutdown lnerr busy) st .shutdownReturns = some st2
            ∧ st2.result = some (some .DeadlineExceeded)
            ∧ st2.shutdownReturnedAt = some (now + st.s.ShutdownTimeout))
        ∧ (st.winner = some .quit → ∀ err, st.result = some err →
            err = some .DeadlineExceeded
            ∧ ∃ ctx now, st.shutdownCalls = [(ctx, now)]
                ∧ st.shutdownReturnedAt = some (now + st.s.ShutdownTimeout))) := by
  have hinv := Inv_entry (httpShutdown lnerr busy) ep sched st hrun
  refine ⟨?_, ?_, ?_⟩
  · intro ctx now hmem
    have hctx : ctx = WithTimeout Background st.s.ShutdownTimeout now := by
      rcases hinv.main_cases with ⟨_, _, h, _⟩ | ⟨_, _, h, _⟩ | ⟨_, _, _, h, _⟩ | ⟨_, _, _, h, _⟩
        | ⟨_, _, _, _, h, _⟩
      all_goals (rw [h] at hmem; simp at hmem)
      · exact hmem.2 ▸ hmem.1
      · exact hmem.2 ▸ hmem.1
    subst hctx
    refine ⟨rfl, ?_⟩
    intro τ
    simp only [WithTimeout_Background, Context.Err]
    split <;> simp_all
  · intro hm now
    have hc : st.shutdownCalls = [] := by
      rcases hinv.main_cases with ⟨_, _, h, _⟩ | ⟨_, _, h, _⟩ | ⟨_, h, _⟩ | ⟨_, h, _⟩
        | ⟨_, _, h, _⟩
      · exact h
      · exact h
      all_goals (rw [hm] at h; cases h)
    obtain ⟨s, quit, task, main, launched, served, sent, winner, calls, retAt⟩ := st
    simp only at hm hc
    subst hm hc
    simp [step, WithTimeout_Background]
  · intro hbusy
    constructor
    · intro ctx now hm
      have hctx : ctx = WithTimeout Background st.s.ShutdownTimeout now := by
        rcases hinv.main_cases with ⟨h, _⟩ | ⟨h, _⟩ | ⟨_, h, _⟩ | ⟨_, h, _⟩ | ⟨_, _, h, _⟩
        all_goals (rw [hm] at h; cases h)
        rfl
      subst hctx
      have hS := httpShutdown_exceeds lnerr busy st.s.ShutdownTimeout now ht hbusy
      obtain ⟨st2, h1, _, h3, h4⟩ := inShutdown_proceeds _ st _ now _ hm hS
      refine ⟨st2, ?_, h3, h4⟩
      simp only [exec] at h1
      cases hstep : step (httpShutdown lnerr busy) st .shutdownReturns with
      | none => simp [hstep] at h1
      | some st3 =>
        simp only [hstep, Option.some.injEq] at h1
        rw [h1]
    · intro hw err hres
      rcases (hinv.of_quit hw).2 with ⟨hm, _⟩ | ⟨_, hm, _⟩ | ⟨now, ret, hm, hc, hS, hr⟩
      · simp [State.result, hm] at hres
      · simp [State.result, hm] at hres
      · rw [httpShutdown_exceeds lnerr busy st.s.ShutdownTimeout now ht hbusy] at hS
        cases hS
        simp only [State.result, hm, Option.some.injEq] at hres
        exact ⟨hres.symm, _, now, hc, hr⟩

/-- C2 on the code: with `WithShutdownTimeout(0)`, a signal and connections
that need one more second, the context handed to `Shutdown` at the instant 100
has its deadline at 100 and has expired already; `Shutdown` returns at once and
the run returns `context.DeadlineExceeded` instead of waiting. -/
theorem zero_timeout_expires_at_once :
    (exec (httpShutdown none (some Second))
        (EntryPoint.free "localhost:8080" (none : Option Unit)
          [(.shutdownTimeout 0 : OptionCall Unit)]).start
        [.signal .SIGTERM, .selectQuit, .callShutdown 100, .shutdownReturns]).map
      (fun st => (st.result, st.shutdownCalls, st.shutdownReturnedAt))
      = some (some (some .DeadlineExceeded), [({ deadline := some 100 }, 100)], some 100)
    ∧ Context.Err { deadline := some 100 } 100 = some .DeadlineExceeded := by
  constructor
  · decide
  · decide

theorem lastShutdownTimeout_none (calls : List (OptionCall F))
    (h : ∀ d, OptionCall.shutdownTimeout d ∉ calls) : lastShutdownTimeout calls = none := by
  induction calls with
  | nil => rfl
  | cons c rest ih =>
    cases c with
    | shutdownTimeout d => exact absurd (List.mem_cons_self _ _) (h d)
    | shutdownFunc fs =>
      simp only [lastShutdownTimeout]
      exact ih fun d hd => h d (List.mem_cons_of_mem _ hd)

theorem lastShutdownTimeout_append (before after : List (OptionCall F)) (d : Duration) :
    lastShutdownTimeout (before ++ .shutdownTimeout d :: after)
      = some ((lastShutdownTimeout after).getD d) := by
  induction before with
  | nil => rfl
  | cons c rest ih =>
    cases c with
    | shutdownTimeout d1 => simp [lastShutdownTimeout, ih]
    | shutdownFunc fs => simp [lastShutdownTimeout, ih]

/-- C7: applying `WithShutdownFunc(fs...)` to a server leaves its registered
callbacks equal to the previous ones followed by `fs`, in order; loading
several `WithShutdownFunc` options yields the previous callbacks followed by
the concatenation of their lists in the order supplied, and this also holds
when `WithShutdownTimeout` options stand between them. -/
theorem WithShutdownFunc_appends_in_order (fs : List F) (fss : List (List F))
    (calls : List (OptionCall F)) (s : Server H F) :
    ((WithShutdownFunc fs).apply s).Srv.onShutdown = s.Srv.onShutdown ++ fs
    ∧ (s.load (fss.map WithShutdownFunc)).Srv.onShutdown = s.Srv.onShutdown ++ fss.flatten
    ∧ (s.load (calls.map OptionCall.eval)).Srv.onShutdown
        = s.Srv.onShutdown ++ shutdownFuncs calls := by
  refine ⟨?_, ?_, ?_⟩
  · rw [WithShutdownFunc_apply]
  · have h := load_eval (H := H) (fss.map OptionCall.shutdownFunc) s
    rw [List.map_map] at h
    have e : (OptionCall.eval (H := H) (F := F)) ∘ OptionCall.shutdownFunc = WithShutdownFunc := by
      funext fs
      rfl
    rw [e] at h
    rw [h, shutdownFuncs_map]
  · rw [load_eval]

/-- C8: each built-in option changes one field. `WithShutdownTimeout(d)` sets
`ShutdownTimeout` to `d` for every `d`, of any sign, and leaves the embedded
server (with its callbacks) and the error channel as they were;
`WithShutdownFunc(fs...)` leaves `ShutdownTimeout`, the error channel and the
address and handler of the embedded server as they were. -/
theorem option_changes_one_field (d : Duration) (fs : List F) (s : Server H F) :
    (((WithShutdownTimeout d).apply s).ShutdownTimeout = d
      ∧ ((WithShutdownTimeout d).apply s).Srv = s.Srv
      ∧ ((WithShutdownTimeout d).apply s).errChan = s.errChan)
    ∧ (((WithShutdownFunc fs).apply s).ShutdownTimeout = s.ShutdownTimeout
      ∧ ((WithShutdownFunc fs).apply s).errChan = s.errChan
      ∧ ((WithShutdownFunc fs).apply s).Srv.Addr = s.Srv.Addr
      ∧ ((WithShutdownFunc fs).apply s).Srv.Handler = s.Srv.Handler
      ∧ ((WithShutdownFunc fs).apply s).Srv.onShutdown = s.Srv.onShutdown ++ fs) := by
  rw [WithShutdownFunc_apply, WithShutdownTimeout_apply]
  simp

/-- C9: a timeout option and a callbacks option commute: loaded in either
order from any server they give the same server, whose timeout is `d` and
whose callbacks are the initial ones followed by `fs`. -/
theorem timeout_and_func_commute (d : Duration) (fs : List F) (s : Server H F) :
    s.load [WithShutdownTimeout d, WithShutdownFunc fs]
      = s.load [WithShutdownFunc fs, WithShutdownTimeout d]
    ∧ (s.load [WithShutdownTimeout d, WithShutdownFunc fs]).ShutdownTimeout = d
    ∧ (s.load [WithShutdownTimeout d, WithShutdownFunc fs]).Srv.onShutdown
        = s.Srv.onShutdown ++ fs := by
  simp only [load_cons, load_nil, WithShutdownFunc_apply, WithShutdownTimeout_apply]
  simp

theorem free_start_timeout (addr certFile keyFile : String) (handler : H)
    (calls : List (OptionCall F)) :
    (ListenAndServe addr handler (calls.map OptionCall.eval)).s.ShutdownTimeout
        = (lastShutdownTimeout calls).getD DefaultShutdownTimeout
    ∧ (ListenAndServeTLS addr certFile keyFile handler
          (calls.map OptionCall.eval)).s.ShutdownTimeout
        = (lastShutdownTimeout calls).getD DefaultShutdownTimeout := by
  simp only [ListenAndServe, ListenAndServeTLS, Server.ListenAndServe, Server.ListenAndServeTLS,
    Server.waitForShutdown, load_eval, Server.init]
  simp

/-- C10: for the two free entry points and every list of options, the timeout
with which the run starts waiting is five seconds when no `WithShutdownTimeout`
is among the options, and otherwise the duration of the last
`WithShutdownTimeout`; no step of the run changes it. -/
theorem free_entry_timeout (addr certFile keyFile : String) (handler : H)
    (calls : List (OptionCall F)) :
    ((∀ d, OptionCall.shutdownTimeout d ∉ calls) →
        (ListenAndServe addr handler (calls.map OptionCall.eval)).s.ShutdownTimeout
            = 5000000000
        ∧ (ListenAndServeTLS addr certFile keyFile handler
              (calls.map OptionCall.eval)).s.ShutdownTimeout = 5000000000)
    ∧ (∀ before d after, calls = before ++ OptionCall.shutdownTimeout d :: after →
        (∀ d1, OptionCall.shutdownTimeout d1 ∉ after) →
        (ListenAndServe addr handler (calls.map OptionCall.eval)).s.ShutdownTimeout = d
        ∧ (ListenAndServeTLS addr certFile keyFile handler
              (calls.map OptionCall.eval)).s.ShutdownTimeout = d)
    ∧ (ListenAndServe addr handler (calls.map OptionCall.eval)).main = .selecting
    ∧ (ListenAndServeTLS addr certFile keyFile handler (calls.map OptionCall.eval)).main
        = .selecting
    ∧ (∀ Shutdown sched st,
        (exec Shutdown (ListenAndServe addr handler (calls.map OptionCall.eval)) sched = some st
          → st.s.ShutdownTimeout
              = (ListenAndServe addr handler (calls.map OptionCall.eval)).s.ShutdownTimeout)
        ∧ (exec Shutdown
              (ListenAndServeTLS addr certFile keyFile handler (calls.map OptionCall.eval))
              sched = some st
          → st.s.ShutdownTimeout
              = (ListenAndServeTLS addr certFile keyFile handler
                  (calls.map OptionCall.eval)).s.ShutdownTimeout)) := by
  obtain ⟨h1, h2⟩ := free_start_timeout addr certFile keyFile handler calls
  refine ⟨?_, ?_, rfl, rfl, ?_⟩
  · intro hno
    rw [h1, h2, lastShutdownTimeout_none calls hno]
    exact ⟨rfl, rfl⟩
  · intro before d after hcalls hno
    rw [h1, h2, hcalls, lastShutdownTimeout_append, lastShutdownTimeout_none after hno]
    exact ⟨rfl, rfl⟩
  · intro Shutdown sched st
    constructor
    · intro hrun
      exact (Inv_entry Shutdown (.free addr handler calls) sched st hrun).timeout
    · intro hrun
      exact (Inv_entry Shutdown (.freeTLS addr certFile keyFile handler calls) sched st
        hrun).timeout

end Proofs

/-! ## The claims at concrete runs -/

/-- The run of the test: the serve call fails for the address `"bbb"`, no signal
arrives, and the run returns the tagged error. -/
theorem start_failure_is_tagged_witness :
    exec (httpShutdown none none) bbbCall.start bbbSchedule = some bbbReturned
    ∧ (bbbReturned.result = some (some (Errorf bbbError))
        ∧ (Errorf bbbError).Error = "[graceful] " ++ bbbError.Error
        ∧ (Errorf bbbError).Unwrap = some bbbError)
    ∧ "[graceful] " ++ bbbError.Error
        = "[graceful] listen tcp: address bbb: missing port in address" :=
  ⟨by decide,
    (start_failure_is_tagged (httpShutdown none none) bbbCall bbbSchedule bbbReturned bbbError
      (by decide) (by decide) (by decide)).1 (by decide),
    by decide⟩

/-- A run in which a start failure is pending in the error channel when the
signal is taken: the run returns the nil error of `Shutdown` and the failure
stays in the channel. -/
theorem signal_path_returns_shutdown_result_witness :
    exec (httpShutdown none (some 0)) bbbCall.start pendingFailureSchedule
        = some pendingFailureReturned
    ∧ pendingFailureReturned.winner = some .quit
    ∧ pendingFailureReturned.result = some none
    ∧ pendingFailureReturned.s.errChan.buf = pendingFailureReturned.sent :=
  ⟨by decide, by decide, by decide,
    (signal_path_returns_shutdown_result (httpShutdown none (some 0)) bbbCall
      pendingFailureSchedule pendingFailureReturned (by decide) (by decide)).1⟩

/-- A run in which both cases of the `select` are ready and the error channel
is taken: one `select` action, no invocation of `Shutdown`. -/
theorem shutdown_at_most_once_witness :
    exec (httpShutdown none none) bbbCall.start raceSchedule = some raceReturned
    ∧ raceSchedule.countP Action.isCallShutdown = raceReturned.shutdownCalls.length
    ∧ raceReturned.shutdownCalls.length ≤ 1
    ∧ raceSchedule.countP Action.isSelect ≤ 1 :=
  ⟨by decide,
    (shutdown_at_most_once (httpShutdown none none) bbbCall raceSchedule raceReturned
      (by decide)).1,
    (shutdown_at_most_once (httpShutdown none none) bbbCall raceSchedule raceReturned
      (by decide)).2.1,
    (shutdown_at_most_once (httpShutdown none none) bbbCall raceSchedule raceReturned
      (by decide)).2.2.1⟩

/-- A run with a timeout of two seconds and connections that need three:
`Shutdown` is called at 100 with the deadline two seconds later and the run
returns `context.DeadlineExceeded` at that deadline. -/
theorem positive_timeout_bounds_shutdown_witness :
    exec (httpShutdown none (some (3 * Second))) twoSecondCall.start signalSchedule
        = some twoSecondReturned
    ∧ 0 < twoSecondReturned.s.ShutdownTimeout
    ∧ twoSecondReturned.result = some (some .DeadlineExceeded)
    ∧ twoSecondReturned.shutdownReturnedAt = some (100 + 2 * Second)
    ∧ ({ deadline := some 2000000100 } : Context).deadline
        = some (100 + twoSecondReturned.s.ShutdownTimeout) :=
  ⟨by decide, by decide, by decide, by decide,
    ((positive_timeout_bounds_shutdown none (some (3 * Second)) twoSecondCall signalSchedule
      twoSecondReturned (by decide) (by decide)).1 { deadline := some 2000000100 } 100
      (by decide)).1⟩

/-- With the options timeout 3, callbacks, timeout 7, callbacks, both free
entry points start waiting with the timeout 7. -/
theorem free_entry_timeout_witness :
    mixedOptions = [.shutdownTimeout 3, .shutdownFunc [1]] ++ .shutdownTimeout 7 ::
        [.shutdownFunc [2]]
    ∧ ((ListenAndServe ":8080" () (mixedOptions.map OptionCall.eval)).s.ShutdownTimeout = 7
      ∧ (ListenAndServeTLS ":8443" "cert.pem" "key.pem" ()
          (mixedOptions.map OptionCall.eval)).s.ShutdownTimeout = 7) :=
  ⟨rfl,
    (free_entry_timeout ":8080" "cert.pem" "key.pem" () mixedOptions).2.1
      [.shutdownTimeout 3, .shutdownFunc [1]] 7 [.shutdownFunc [2]] rfl
      (by intro d1 h; simp at h)⟩

end Graceful
